import Mathlib

/-!
Verification of the SafeTaichung risk-scoring engine.

Shallow embedding of the core pipeline of the repository:
the incident normalizer of docs/analysis_code.py (clean_crime_data,
extract_district), the district risk aggregator and hourly risk aggregator
of src/risk_model.py (compute_district_risk_summary,
compute_hourly_risk_summary), and the route risk composer
(compute_route_risk).

Modelling conventions:
* Python floats are modelled as exact rationals; a pandas NaN cell is
  modelled as an Option that is none.  Arithmetic on possibly-NaN values
  (rmul, radd, rdiv) propagates none, and a comparison with none is false,
  matching IEEE NaN comparison semantics.
* Python round(x, k) is modelled as half-up rounding on exact rationals;
  Python rounds floats half-to-even, which differs only on exact ties of
  the binary representation, and no claim depends on tie behaviour.
* pandas groupby is modelled by taking the deduplicated key list and
  counting matching rows; pandas sorts group keys while dedup keeps another
  order, but every claim below is invariant under row order, and the
  summaries are re-sorted at the end exactly as the source does.
* pandas merge on a unique-key right table is modelled by find? lookup
  (the population table of the repository has one row per district).
* raw CSV cells that Python int() fails to parse (NaN, malformed text) are
  modelled as none; parsed nonnegative numerals as some n.
-/

namespace SafeTaichung

/-- Half-up rounding to one decimal place, modelling round(x, 1). -/
def round1 (x : ℚ) : ℚ := ((round (x * 10) : ℤ) : ℚ) / 10

/-- Half-up rounding to two decimal places, modelling round(x, 2). -/
def round2 (x : ℚ) : ℚ := ((round (x * 100) : ℤ) : ℚ) / 100

/-- Rounding to one decimal moves a value by at most 1/20. -/
theorem abs_round1_sub (x : ℚ) : |round1 x - x| ≤ 1 / 20 := by
  have h := abs_sub_round (x * 10)
  rw [round1]
  have : ((round (x * 10) : ℤ) : ℚ) / 10 - x = ((round (x * 10) : ℤ) - x * 10) / 10 := by ring
  rw [this, abs_div]
  rw [abs_sub_comm] at h
  have h10 : |(10 : ℚ)| = 10 := by norm_num
  rw [h10]
  linarith

/-- Rounding to two decimals moves a value by at most 1/200. -/
theorem abs_round2_sub (x : ℚ) : |round2 x - x| ≤ 1 / 200 := by
  have h := abs_sub_round (x * 100)
  rw [round2]
  have : ((round (x * 100) : ℤ) : ℚ) / 100 - x = ((round (x * 100) : ℤ) - x * 100) / 100 := by
    ring
  rw [this, abs_div]
  rw [abs_sub_comm] at h
  have h100 : |(100 : ℚ)| = 100 := by norm_num
  rw [h100]
  linarith

/-!  Incident Normalizer (docs/analysis_code.py, clean_crime_data).  -/

/-- Decimal digits of n, most significant first, for positive n; the fuel
argument bounds the recursion and is in practice at least the digit count. -/
def decDigitsAux : ℕ → ℕ → List ℕ
  | 0, _ => []
  | fuel + 1, n => if n = 0 then [] else decDigitsAux fuel (n / 10) ++ [n % 10]

/-- Digit list of str(n) in Python: the decimal digits of n, with str(0) being
the single digit 0. -/
def pyDecDigits (n : ℕ) : List ℕ := if n = 0 then [0] else decDigitsAux (n + 1) n

/-- Left-pad a digit list with zeros to width w, modelling str.zfill(w). -/
def zfill (w : ℕ) (l : List ℕ) : List ℕ := List.replicate (w - l.length) 0 ++ l

/-- Value of a big-endian decimal digit list, modelling int() of the slice. -/
def digitsToNat (l : List ℕ) : ℕ := l.foldl (fun a d => 10 * a + d) 0

/-- Day count of a month in the Gregorian calendar, as validated by
pandas Timestamp; months outside 1..12 are rejected before this is used. -/
def daysInMonth (y m : ℕ) : ℕ :=
  if m = 2 then (if (y % 4 = 0 ∧ y % 100 ≠ 0) ∨ y % 400 = 0 then 29 else 28)
  else if m = 4 ∨ m = 6 ∨ m = 9 ∨ m = 11 then 30 else 31

/-- Validity of year, month, day for pandas Timestamp construction: calendar
validity plus the nanosecond-epoch upper bound 2262-04-11 (the lower bound
1677-09-21 is unreachable since every decoded year is at least 1911). -/
def timestampOk (y m d : ℕ) : Bool :=
  decide (1 ≤ m) && decide (m ≤ 12) && decide (1 ≤ d) && decide (d ≤ daysInMonth y m) &&
    (decide (y < 2262) ||
      (decide (y = 2262) && (decide (m < 4) || (decide (m = 4) && decide (d ≤ 11)))))

/-- Embedding of convert_roc_date: str(int(date_val)).zfill(7), slice chars
0:3 as the ROC year, 3:5 as month, 5:7 as day, add 1911 to the year, build a
Timestamp; any failure (unparsable cell, invalid calendar date) gives NaT,
modelled as none. -/
def convert_roc_date (dateVal : Option ℕ) : Option (ℕ × ℕ × ℕ) :=
  match dateVal with
  | none => none
  | some v =>
    let s := zfill 7 (pyDecDigits v)
    let rocYear := digitsToNat (s.take 3)
    let month := digitsToNat ((s.drop 3).take 2)
    let day := digitsToNat ((s.drop 5).take 2)
    let year := rocYear + 1911
    if timestampOk year month day then some (year, month, day) else none

/-- Embedding of extract_hour: str(int(time_val)).zfill(4), chars 0:2 as the
hour; an unparsable cell gives the sentinel -1.  The source applies no range
check to the decoded value. -/
def extract_hour (timeVal : Option ℕ) : ℤ :=
  match timeVal with
  | none => -1
  | some v => (digitsToNat ((zfill 4 (pyDecDigits v)).take 2) : ℤ)

/-- Raw incident row as the normalizer sees it: date cell, time cell and
free-text location; none models a cell int() or pandas cannot parse. -/
structure RawRecord where
  date_raw : Option ℕ
  time_raw : Option ℕ
  location : Option String
deriving DecidableEq

/-- Normalized record: decoded date, decoded hour, carried location and the
validity flag computed by clean_crime_data. -/
structure CleanedRecord where
  date : Option (ℕ × ℕ × ℕ)
  hour : ℤ
  location : Option String
  is_valid : Bool
deriving DecidableEq

/-- Embedding of clean_crime_data on one row: is_valid starts at 1 and is
cleared when the date failed to decode, the location is missing, or the
decoded hour is negative. -/
def clean_crime_data (r : RawRecord) : CleanedRecord :=
  let date := convert_roc_date r.date_raw
  let hour := extract_hour r.time_raw
  { date := date
    hour := hour
    location := r.location
    is_valid := date.isSome && r.location.isSome && decide (0 ≤ hour) }

/-- Gazetteer of the 29 Taichung districts, in source order. -/
def TAICHUNG_DISTRICTS : List String :=
  ["中區", "東區", "西區", "南區", "北區", "西屯區", "北屯區", "南屯區",
   "豐原區", "大里區", "太平區", "清水區", "沙鹿區", "大甲區", "東勢區",
   "梧棲區", "烏日區", "神岡區", "大肚區", "大雅區", "后里區", "霧峰區",
   "潭子區", "龍井區", "外埔區", "和平區", "石岡區", "大安區", "新社區"]

/-- Character-list test that pat occurs at the start of s. -/
def charsLeading : List Char → List Char → Bool
  | [], _ => true
  | _ :: _, [] => false
  | a :: as, b :: bs => a == b && charsLeading as bs

/-- Character-list substring test, scanning every suffix. -/
def charsContain (pat : List Char) : List Char → Bool
  | [] => charsLeading pat []
  | c :: t => charsLeading pat (c :: t) || charsContain pat t

/-- Substring containment, modelling the Python test of district in location. -/
def strContains (s pat : String) : Bool := charsContain pat.data s.data

/-- Embedding of extract_district: a missing location gives 未知 (unknown);
otherwise the first gazetteer name occurring in the text, else 其他 (other). -/
def extract_district (location : Option String) : String :=
  match location with
  | none => "未知"
  | some s =>
    match TAICHUNG_DISTRICTS.find? (fun d => strContains s d) with
    | some d => d
    | none => "其他"

/-!  District Risk Aggregator (src/risk_model.py, compute_district_risk_summary).
A valid incident record enters aggregation through its district and hour only. -/

/-- Valid incident record as the aggregators consume it. -/
structure TheftRecord where
  district : String
  hour : ℤ
deriving DecidableEq

/-- Daytime predicate of the source: 6 <= hour < 18. -/
def isDaytime (h : ℤ) : Bool := decide (6 ≤ h) && decide (h < 18)

/-- Group keys of groupby district: the distinct districts of the data. -/
def districtKeys (theft : List TheftRecord) : List String :=
  (theft.map TheftRecord.district).dedup

/-- Row of the district summary before risk-level assignment. -/
structure DistrictRow where
  district : String
  total_cases : ℕ
  daytime_cases : ℕ
  population : Option ℚ
  night_cases : ℕ
  daytime_cases_ratio : ℚ
  night_cases_ratio : ℚ
  cases_per_10k_pop : Option ℚ
deriving DecidableEq

/-- One merged row of the district summary: group sizes, left-joined
population (none when the district is absent from the population table, the
NaN of pandas), day and night ratios, and the per-10k rate (none when the
population is unknown). -/
def mkDistrictRow (theft : List TheftRecord) (pop : List (String × ℚ)) (d : String) :
    DistrictRow :=
  let total := theft.countP (fun r => r.district == d)
  let daytime := theft.countP (fun r => r.district == d && isDaytime r.hour)
  let popv := (pop.find? (fun p => p.1 == d)).map Prod.snd
  { district := d
    total_cases := total
    daytime_cases := daytime
    population := popv
    night_cases := total - daytime
    daytime_cases_ratio := round1 ((daytime : ℚ) / (total : ℚ) * 100)
    night_cases_ratio := round1 (((total - daytime : ℕ) : ℚ) / (total : ℚ) * 100)
    cases_per_10k_pop := popv.map (fun p => round2 ((total : ℚ) / p * 10000)) }

/-- Linear-interpolation quantile of pandas Series.quantile over the given
(non-NaN) values: position p * (n - 1) in the sorted vector, interpolating
between the neighbouring entries; the empty vector gives NaN, here none. -/
def quantile (p : ℚ) (l : List ℚ) : Option ℚ :=
  match l with
  | [] => none
  | _ :: _ =>
    let s := l.insertionSort (fun a b => a ≤ b)
    let pos := p * ((l.length : ℚ) - 1)
    let i := (Int.floor pos).toNat
    let lo := s.getD i 0
    let hi := s.getD (i + 1) lo
    some (lo + (hi - lo) * (pos - (Int.floor pos : ℤ)))

/-- Comparison of a float against a possibly-NaN threshold: any comparison
with NaN is false, as in Python. -/
def rleq (x : ℚ) (q : Option ℚ) : Bool :=
  match q with
  | none => false
  | some a => decide (x ≤ a)

/-- Embedding of assign_risk_level: NaN rate gives 未知; otherwise at most
q33 gives 低, at most q67 gives 中, else 高.  When a quantile is NaN both
comparisons are false and the branch falls through to 高, exactly as the
Python comparisons with NaN would. -/
def assign_risk_level (q33 q67 : Option ℚ) (rate : Option ℚ) : String :=
  match rate with
  | none => "未知"
  | some x => if rleq x q33 then "低" else if rleq x q67 then "中" else "高"

/-- Output row of the district risk summary, with the output columns of the
source. -/
structure DistrictRiskEntry where
  district : String
  total_cases : ℕ
  population : Option ℚ
  cases_per_10k_pop : Option ℚ
  daytime_cases_ratio : ℚ
  night_cases_ratio : ℚ
  risk_level : String
deriving DecidableEq

/-- Descending order on possibly-NaN rates for sort_values ascending=False:
NaN rows sort last, as in pandas. -/
def rateDesc : Option ℚ → Option ℚ → Bool
  | some x, some y => decide (y ≤ x)
  | some _, none => true
  | none, some _ => false
  | none, none => true

/-- Projection of a summary row to the output columns, with the risk level
assigned from the two quantiles. -/
def toDistrictEntry (q33 q67 : Option ℚ) (r : DistrictRow) : DistrictRiskEntry :=
  { district := r.district
    total_cases := r.total_cases
    population := r.population
    cases_per_10k_pop := r.cases_per_10k_pop
    daytime_cases_ratio := r.daytime_cases_ratio
    night_cases_ratio := r.night_cases_ratio
    risk_level := assign_risk_level q33 q67 r.cases_per_10k_pop }

/-- Rate column of the summary with NaN entries dropped, the vector pandas
Series.quantile aggregates over. -/
def districtRates (theft : List TheftRecord) (pop : List (String × ℚ)) : List ℚ :=
  ((districtKeys theft).map (mkDistrictRow theft pop)).filterMap
    DistrictRow.cases_per_10k_pop

/-- District summary rows before the final sort. -/
def districtEntriesRaw (theft : List TheftRecord) (pop : List (String × ℚ)) :
    List DistrictRiskEntry :=
  ((districtKeys theft).map (mkDistrictRow theft pop)).map
    (toDistrictEntry (quantile (33 / 100) (districtRates theft pop))
      (quantile (67 / 100) (districtRates theft pop)))

/-- Embedding of compute_district_risk_summary: group the valid records by
district, count day and night cases, left-join the population table, compute
ratios and the per-10k rate, take the 0.33 and 0.67 quantiles of the non-NaN
rate column, assign risk levels, and sort by rate descending. -/
def compute_district_risk_summary (theft : List TheftRecord) (pop : List (String × ℚ)) :
    List DistrictRiskEntry :=
  (districtEntriesRaw theft pop).insertionSort
    (fun a b => rateDesc a.cases_per_10k_pop b.cases_per_10k_pop = true)

/-!  Hourly Risk Aggregator (src/risk_model.py, compute_hourly_risk_summary). -/

/-- Output row of the hourly risk summary. -/
structure HourlyRiskEntry where
  district : String
  hour : ℤ
  hour_cases : ℕ
  hour_ratio : ℚ
  hour_risk_score : ℚ
deriving DecidableEq

/-- Group keys of groupby (district, hour): the distinct pairs of the data. -/
def hourlyKeys (theft : List TheftRecord) : List (String × ℤ) :=
  (theft.map (fun r => (r.district, r.hour))).dedup

/-- Per-district totals, the right-hand table of the merge on district. -/
def districtTotals (theft : List TheftRecord) : List (String × ℕ) :=
  (districtKeys theft).map (fun d => (d, theft.countP (fun r => r.district == d)))

/-- One row of the hourly summary for a (district, hour) group: the group
size, the merged district total, the ratio and the risk score
hour_cases / (district_total / 24), both rounded to two decimals. -/
def mkHourlyRow (theft : List TheftRecord) (k : String × ℤ) : HourlyRiskEntry :=
  let hc := theft.countP (fun r => r.district == k.1 && r.hour == k.2)
  let dt := (((districtTotals theft).find? (fun p => p.1 == k.1)).map Prod.snd).getD 0
  { district := k.1
    hour := k.2
    hour_cases := hc
    hour_ratio := round2 ((hc : ℚ) / (dt : ℚ) * 100)
    hour_risk_score := round2 ((hc : ℚ) / ((dt : ℚ) / 24)) }

/-- Sort key of the hourly summary: by district, then hour.  The unused
city-wide hourly mean of the source (computed and never read) is omitted. -/
def hourlyOrder (a b : HourlyRiskEntry) : Bool :=
  decide (a.district < b.district) || (a.district == b.district && decide (a.hour ≤ b.hour))

/-- Embedding of compute_hourly_risk_summary: group by (district, hour),
merge the district totals, compute ratio and score, sort by (district, hour). -/
def compute_hourly_risk_summary (theft : List TheftRecord) : List HourlyRiskEntry :=
  ((hourlyKeys theft).map (mkHourlyRow theft)).insertionSort
    (fun a b => hourlyOrder a b = true)

/-!  Route Risk Composer (src/risk_model.py, compute_route_risk).  The
Composer reads the two aggregate tables, so it is embedded as a function of
the tables plus the caller-supplied district list and departure hour.
Possibly-NaN values flow through it; rmul, radd, rdiv propagate none. -/

/-- NaN-propagating multiplication. -/
def rmul : Option ℚ → Option ℚ → Option ℚ
  | some x, some y => some (x * y)
  | _, _ => none

/-- NaN-propagating addition. -/
def radd : Option ℚ → Option ℚ → Option ℚ
  | some x, some y => some (x + y)
  | _, _ => none

/-- NaN-propagating division; the source divides only by a positive length. -/
def rdiv : Option ℚ → Option ℚ → Option ℚ
  | some x, some y => some (x / y)
  | _, _ => none

/-- NaN-propagating two-decimal rounding. -/
def rround2 : Option ℚ → Option ℚ := Option.map round2

/-- Strict comparison against a constant; false when the value is NaN, as the
Python comparison would be. -/
def rltBool (a : Option ℚ) (c : ℚ) : Bool :=
  match a with
  | none => false
  | some x => decide (x < c)

/-- Per-segment detail record appended for each district of the route. -/
structure SegmentRisk where
  district : String
  cases_per_10k_pop : Option ℚ
  risk_level : String
  hour_risk_score : ℚ
  segment_risk : Option ℚ
deriving DecidableEq

/-- Result dictionary of compute_route_risk. -/
structure RouteRiskResult where
  route_risk_score : Option ℚ
  route_risk_label : String
  district_risks : List SegmentRisk
  departure_hour : ℤ
deriving DecidableEq

/-- Loop body of compute_route_risk: look up the district row (missing row
gives rate 0 and level 未知), look up the hourly row for the departure hour
(missing row gives score 1.0), multiply, accumulate, and append the detail. -/
def routeStep (districtSummary : List DistrictRiskEntry)
    (hourlySummary : List HourlyRiskEntry) (departureHour : ℤ)
    (acc : Option ℚ × List SegmentRisk) (d : String) : Option ℚ × List SegmentRisk :=
  let distRow := districtSummary.find? (fun e => e.district == d)
  let casesPer10k := match distRow with
    | some e => e.cases_per_10k_pop
    | none => some 0
  let riskLevel := match distRow with
    | some e => e.risk_level
    | none => "未知"
  let hourRow := hourlySummary.find? (fun e => e.district == d && e.hour == departureHour)
  let hourRiskScore := match hourRow with
    | some e => e.hour_risk_score
    | none => 1
  let segmentRisk := rmul casesPer10k (some hourRiskScore)
  (radd acc.1 segmentRisk,
   acc.2 ++ [{ district := d
               cases_per_10k_pop := casesPer10k
               risk_level := riskLevel
               hour_risk_score := hourRiskScore
               segment_risk := rround2 segmentRisk }])

/-- Embedding of compute_route_risk: fold the loop body over the district
list starting from total 0; the average guards the empty list by returning 0;
the label uses fixed thresholds 15 and 40 on the unrounded average, and the
returned score is the average rounded to two decimals. -/
def compute_route_risk (districtSummary : List DistrictRiskEntry)
    (hourlySummary : List HourlyRiskEntry) (districts : List String)
    (departureHour : ℤ) : RouteRiskResult :=
  let res := districts.foldl (routeStep districtSummary hourlySummary departureHour)
    (some 0, [])
  let avg := match districts with
    | [] => some 0
    | _ :: _ => rdiv res.1 (some (districts.length : ℚ))
  { route_risk_score := rround2 avg
    route_risk_label := if rltBool avg 15 then "低" else if rltBool avg 40 then "中" else "高"
    district_risks := res.2
    departure_hour := departureHour }

/-!  Spec-side route formulas.  The following definitions follow the words of
the specification of the Route Risk Composer, to be compared with the
embedding compute_route_risk above: look up the DistrictRiskEntry of each
district (missing entry gives cases_per_10k 0 and risk_level unknown) and the
HourlyRiskEntry for the departure hour (missing entry gives hour_risk_score
1.0); segment_risk is cases_per_10k times hour_risk_score; the route score is
the arithmetic mean of the segment risks, rounded to two decimals. -/

/-- Spec lookup of cases_per_10k: the entry value, or 0 when the district has
no DistrictRiskEntry. -/
def specCasesPer10k (districtSummary : List DistrictRiskEntry) (d : String) : Option ℚ :=
  match districtSummary.find? (fun e => e.district == d) with
  | some e => e.cases_per_10k_pop
  | none => some 0

/-- Spec lookup of risk_level: the entry value, or 未知 when the district has
no DistrictRiskEntry. -/
def specRiskLevel (districtSummary : List DistrictRiskEntry) (d : String) : String :=
  match districtSummary.find? (fun e => e.district == d) with
  | some e => e.risk_level
  | none => "未知"

/-- Spec lookup of hour_risk_score: the entry value for (district, hour), or
the neutral 1.0 when no HourlyRiskEntry exists for that pair. -/
def specHourScore (hourlySummary : List HourlyRiskEntry) (departureHour : ℤ)
    (d : String) : ℚ :=
  match hourlySummary.find? (fun e => e.district == d && e.hour == departureHour) with
  | some e => e.hour_risk_score
  | none => 1

/-- Spec segment risk: cases_per_10k times hour_risk_score. -/
def specSegmentRisk (districtSummary : List DistrictRiskEntry)
    (hourlySummary : List HourlyRiskEntry) (departureHour : ℤ) (d : String) : Option ℚ :=
  rmul (specCasesPer10k districtSummary d) (some (specHourScore hourlySummary departureHour d))

/-- Sum of a list of possibly-NaN values. -/
def rsum (l : List (Option ℚ)) : Option ℚ := l.foldr radd (some 0)

/-- Spec route mean: the arithmetic mean of all segment risks, duplicates
included, before any rounding. -/
def specRouteMean (districtSummary : List DistrictRiskEntry)
    (hourlySummary : List HourlyRiskEntry) (districts : List String)
    (departureHour : ℤ) : Option ℚ :=
  rdiv (rsum (districts.map (specSegmentRisk districtSummary hourlySummary departureHour)))
    (some (districts.length : ℚ))

/-- Spec route score: the arithmetic mean of all segment risks (duplicates
included), rounded to two decimals. -/
def specRouteScore (districtSummary : List DistrictRiskEntry)
    (hourlySummary : List HourlyRiskEntry) (districts : List String)
    (departureHour : ℤ) : Option ℚ :=
  rround2 (specRouteMean districtSummary hourlySummary districts departureHour)

/-- Detail record the loop appends for one district, in spec vocabulary. -/
def segmentDetail (districtSummary : List DistrictRiskEntry)
    (hourlySummary : List HourlyRiskEntry) (departureHour : ℤ) (d : String) : SegmentRisk :=
  { district := d
    cases_per_10k_pop := specCasesPer10k districtSummary d
    risk_level := specRiskLevel districtSummary d
    hour_risk_score := specHourScore hourlySummary departureHour d
    segment_risk := rround2 (specSegmentRisk districtSummary hourlySummary departureHour d) }

/-!  Remaining spec-side definitions and the concrete data used by the
counterexamples and witnesses below. -/

/-- Fixed-threshold route label of the source, applied to a possibly-NaN
mean: below 15 low, below 40 medium, else high; a NaN mean falls through to
high since both comparisons are false. -/
def routeLabelOf (m : Option ℚ) : String :=
  if rltBool m 15 then "低" else if rltBool m 40 then "中" else "高"

/-- Spec-worded rate vector for the risk-level percentiles: over the
districts of the incident data that have a known population only, each
contributing its cases_per_10k value. -/
def claimKnownRates (theft : List TheftRecord) (pop : List (String × ℚ)) : List ℚ :=
  (districtKeys theft).filterMap (fun d =>
    match pop.find? (fun p => p.1 == d) with
    | some p => some (round2 ((theft.countP (fun r => r.district == d) : ℚ) / p.2 * 10000))
    | none => none)

/-- Hour risk score of a (district, hour) group in terms of raw counts:
hour_cases / (district_total / 24), rounded to two decimals. -/
def hourScore (theft : List TheftRecord) (d : String) (h : ℕ) : ℚ :=
  round2 ((theft.countP (fun r => r.district == d && r.hour == (h : ℤ)) : ℚ) /
    ((theft.countP (fun r => r.district == d) : ℚ) / 24))

/-- District table of the single-district scenario of the specification:
district A with cases_per_10k 20.0. -/
def scenarioDistrictTable : List DistrictRiskEntry :=
  [{ district := "A", total_cases := 300, population := some 150000,
     cases_per_10k_pop := some 20, daytime_cases_ratio := 50, night_cases_ratio := 50,
     risk_level := "高" }]

/-- Hourly table of the scenario: district A at hour 14 with score 2.0. -/
def scenarioHourlyTable : List HourlyRiskEntry :=
  [{ district := "A", hour := 14, hour_cases := 50, hour_ratio := 833 / 100,
     hour_risk_score := 2 }]

/-- District table of the threshold boundary counterexample: rate 0.64, a
value the aggregator produces for 16 cases over population 11203125. -/
def boundaryDistrictTable : List DistrictRiskEntry :=
  [{ district := "A", total_cases := 16, population := some 11203125,
     cases_per_10k_pop := some (64 / 100), daytime_cases_ratio := 50,
     night_cases_ratio := 50, risk_level := "低" }]

/-- Hourly table of the boundary counterexample: score 23.43, the rounding of
24 * 41 / 42 the aggregator produces for 41 cases out of 42 in one hour. -/
def boundaryHourlyTable : List HourlyRiskEntry :=
  [{ district := "A", hour := 0, hour_cases := 41, hour_ratio := 2343 / 100,
     hour_risk_score := 2343 / 100 }]

/-- Raw record whose time cell is 2500, parsable but out of range. -/
def oddTimeRecord : RawRecord :=
  { date_raw := some 1050101, time_raw := some 2500, location := some "臺中市某處" }

/-- Raw record that cleans to a valid record in 北區. -/
def northRecord : RawRecord :=
  { date_raw := some 1050101, time_raw := some 1200, location := some "台中市北區進化路" }

/-- Incident data with a single valid record resolving to 其他 (other). -/
def strayTheft : List TheftRecord := [{ district := "其他", hour := 3 }]

/-- Population table naming a district absent from the incident data. -/
def strayPop : List (String × ℚ) := [("西區", 100)]

/-- One-record incident data used by witnesses. -/
def wTheft : List TheftRecord := [{ district := "中區", hour := 3 }]

/-- Population table for the witness data. -/
def wPop : List (String × ℚ) := [("中區", 1000)]

/-- The district summary row the pipeline produces for wTheft and wPop. -/
def wEntry : DistrictRiskEntry :=
  { district := "中區", total_cases := 1, population := some 1000,
    cases_per_10k_pop := some 10, daytime_cases_ratio := 0, night_cases_ratio := 100,
    risk_level := "低" }

/-- The hourly summary row the pipeline produces for wTheft. -/
def wHourlyEntry : HourlyRiskEntry :=
  { district := "中區", hour := 3, hour_cases := 1, hour_ratio := 100,
    hour_risk_score := 24 }

/-- Incident data with one case in each of the 24 hours of one district. -/
def w24Theft : List TheftRecord :=
  (List.range 24).map (fun h => { district := "中區", hour := (h : ℤ) })

/-!  Algebra of NaN-propagating addition and the loop characterization. -/

theorem radd_some_zero (a : Option ℚ) : radd a (some 0) = a := by
  cases a <;> simp [radd]

theorem some_zero_radd (a : Option ℚ) : radd (some 0) a = a := by
  cases a <;> simp [radd]

theorem radd_assoc (a b c : Option ℚ) : radd (radd a b) c = radd a (radd b c) := by
  cases a <;> cases b <;> cases c <;> simp [radd, add_assoc]

theorem radd_comm (a b : Option ℚ) : radd a b = radd b a := by
  cases a <;> cases b <;> simp [radd, add_comm]

theorem radd_left_comm (a b c : Option ℚ) : radd a (radd b c) = radd b (radd a c) := by
  rw [← radd_assoc, radd_comm a b, radd_assoc]

/-- Sums of NaN-propagating addition are invariant under permutation. -/
theorem rsum_perm {l₁ l₂ : List (Option ℚ)} (h : List.Perm l₁ l₂) :
    rsum l₁ = rsum l₂ := by
  induction h with
  | nil => rfl
  | cons x _ ih => simp [rsum, List.foldr_cons] at ih ⊢; rw [ih]
  | swap x y l => simp [rsum, List.foldr_cons]; rw [radd_left_comm]
  | trans _ _ ih₁ ih₂ => exact ih₁.trans ih₂

/-- One loop iteration in spec vocabulary. -/
theorem routeStep_eq (districtSummary : List DistrictRiskEntry)
    (hourlySummary : List HourlyRiskEntry) (departureHour : ℤ)
    (a : Option ℚ) (s : List SegmentRisk) (d : String) :
    routeStep districtSummary hourlySummary departureHour (a, s) d =
      (radd a (specSegmentRisk districtSummary hourlySummary departureHour d),
       s ++ [segmentDetail districtSummary hourlySummary departureHour d]) := rfl

/-- The fold of the loop body computes the running sum of the spec segment
risks and appends the details in input order. -/
theorem route_foldl (districtSummary : List DistrictRiskEntry)
    (hourlySummary : List HourlyRiskEntry) (departureHour : ℤ) :
    ∀ (ds : List String) (a : Option ℚ) (s : List SegmentRisk),
      ds.foldl (routeStep districtSummary hourlySummary departureHour) (a, s) =
        (radd a (rsum (ds.map (specSegmentRisk districtSummary hourlySummary
           departureHour))),
         s ++ ds.map (segmentDetail districtSummary hourlySummary departureHour)) := by
  intro ds
  induction ds with
  | nil => intro a s; simp [rsum, radd_some_zero]
  | cons d t ih =>
    intro a s
    rw [List.foldl_cons, routeStep_eq, ih]
    simp [rsum, List.foldr_cons, radd_assoc]

/-- Full characterization of the Composer on a non-empty district list. -/
theorem compute_route_risk_cons (districtSummary : List DistrictRiskEntry)
    (hourlySummary : List HourlyRiskEntry) (d : String) (t : List String)
    (departureHour : ℤ) :
    compute_route_risk districtSummary hourlySummary (d :: t) departureHour =
      { route_risk_score := specRouteScore districtSummary hourlySummary (d :: t)
          departureHour
        route_risk_label := routeLabelOf (specRouteMean districtSummary hourlySummary
          (d :: t) departureHour)
        district_risks := (d :: t).map (segmentDetail districtSummary hourlySummary
          departureHour)
        departure_hour := departureHour } := by
  unfold compute_route_risk
  rw [route_foldl]
  simp only [specRouteScore, specRouteMean, routeLabelOf, some_zero_radd, List.nil_append]

/-- The per-segment details always come out in input order. -/
theorem route_district_risks (districtSummary : List DistrictRiskEntry)
    (hourlySummary : List HourlyRiskEntry) (districts : List String)
    (departureHour : ℤ) :
    (compute_route_risk districtSummary hourlySummary districts
        departureHour).district_risks =
      districts.map (segmentDetail districtSummary hourlySummary departureHour) := by
  unfold compute_route_risk
  rw [route_foldl]
  simp

/-!  Claims about the Route Risk Composer. -/

/-- C1, counterexample: an empty district list does not fail and does not
return no result; the guard of the source silently produces the fallback
score 0 with label 低 and an empty segment list. -/
theorem claim_C1_counterexample :
    compute_route_risk [] [] [] 12 =
      { route_risk_score := some 0, route_risk_label := "低", district_risks := [],
        departure_hour := 12 } := by
  unfold compute_route_risk
  norm_num [rround2, rltBool, round2]

/-- C1, amended: for an empty district list the Composer neither raises nor
divides by zero; its explicit guard returns route_risk_score 0 with label 低
and no segments — a silent fallback value, not a described error. -/
theorem claim_C1_amended (districtSummary : List DistrictRiskEntry)
    (hourlySummary : List HourlyRiskEntry) (departureHour : ℤ) :
    compute_route_risk districtSummary hourlySummary [] departureHour =
      { route_risk_score := some 0, route_risk_label := "低", district_risks := [],
        departure_hour := departureHour } := by
  unfold compute_route_risk
  norm_num [rround2, rltBool, round2]

/-- C2: for every non-empty district list and departure hour the Composer
computes per district segment_risk = cases_per_10k * hour_risk_score, with
cases_per_10k 0 and risk_level 未知 when the district has no
DistrictRiskEntry and hour_risk_score 1.0 when no HourlyRiskEntry exists for
the pair, and returns as route_risk_score the arithmetic mean of all segment
risks, duplicates included, rounded to two decimals. -/
theorem claim_C2 (districtSummary : List DistrictRiskEntry)
    (hourlySummary : List HourlyRiskEntry) (districts : List String)
    (departureHour : ℤ) (hne : districts ≠ []) :
    (compute_route_risk districtSummary hourlySummary districts
        departureHour).route_risk_score =
      specRouteScore districtSummary hourlySummary districts departureHour ∧
    (compute_route_risk districtSummary hourlySummary districts
        departureHour).district_risks =
      districts.map (segmentDetail districtSummary hourlySummary departureHour) := by
  obtain ⟨d, t, rfl⟩ := List.exists_cons_of_ne_nil hne
  rw [compute_route_risk_cons]
  exact ⟨rfl, rfl⟩

/-- C2, witness: on the singleton route A at hour 14 over the scenario
tables the mean formula evaluates to 40. -/
theorem claim_C2_witness :
    (["A"] : List String) ≠ [] ∧
    (compute_route_risk scenarioDistrictTable scenarioHourlyTable ["A"]
        14).route_risk_score = some 40 := by
  refine ⟨by decide, ?_⟩
  rw [(claim_C2 scenarioDistrictTable scenarioHourlyTable ["A"] 14 (by decide)).1]
  norm_num [specRouteScore, specRouteMean, specSegmentRisk, specCasesPer10k, specHourScore,
    scenarioDistrictTable, scenarioHourlyTable, List.find?, rsum, rmul, radd, rdiv,
    rround2, round2]

/-- C6, counterexample: with a district rate 0.64 and hour score 23.43 (both
values the aggregators can produce) the unrounded mean is 14.9952, so the
returned route_risk_score is 15.0 while the label is 低; the claimed mapping
15 ≤ score < 40 to 中 fails on the returned score. -/
theorem claim_C6_counterexample :
    (compute_route_risk boundaryDistrictTable boundaryHourlyTable ["A"]
        0).route_risk_score = some 15 ∧
    (compute_route_risk boundaryDistrictTable boundaryHourlyTable ["A"]
        0).route_risk_label = "低" ∧
    ¬ (compute_route_risk boundaryDistrictTable boundaryHourlyTable ["A"]
        0).route_risk_label = "中" := by
  have hlab : (compute_route_risk boundaryDistrictTable boundaryHourlyTable ["A"]
      0).route_risk_label = "低" := by
    rw [compute_route_risk_cons]
    norm_num [specRouteMean, specSegmentRisk, specCasesPer10k, specHourScore,
      boundaryDistrictTable, boundaryHourlyTable, List.find?, rsum, rmul, radd, rdiv,
      routeLabelOf, rltBool]
  refine ⟨?_, hlab, ?_⟩
  · rw [compute_route_risk_cons]
    norm_num [specRouteScore, specRouteMean, specSegmentRisk, specCasesPer10k,
      specHourScore, boundaryDistrictTable, boundaryHourlyTable, List.find?, rsum, rmul,
      radd, rdiv, rround2, round2, round_eq]
  · rw [hlab]
    decide

/-- C6, amended: the route label uses the fixed thresholds 15 and 40, not
percentiles, applied to the unrounded mean of the segment risks (so at a
boundary it can disagree with the bracket of the rounded returned score); the
scenario of a single district with cases_per_10k 20.0 and hour_risk_score 2.0
yields route_risk_score 40.0 and label 高. -/
theorem claim_C6_amended :
    (∀ (districtSummary : List DistrictRiskEntry) (hourlySummary : List HourlyRiskEntry)
        (districts : List String) (departureHour : ℤ), districts ≠ [] →
        (compute_route_risk districtSummary hourlySummary districts
            departureHour).route_risk_label =
          routeLabelOf (specRouteMean districtSummary hourlySummary districts
            departureHour)) ∧
    (compute_route_risk scenarioDistrictTable scenarioHourlyTable ["A"]
        14).route_risk_score = some 40 ∧
    (compute_route_risk scenarioDistrictTable scenarioHourlyTable ["A"]
        14).route_risk_label = "高" := by
  refine ⟨?_, ?_, ?_⟩
  · intro districtSummary hourlySummary districts departureHour hne
    obtain ⟨d, t, rfl⟩ := List.exists_cons_of_ne_nil hne
    rw [compute_route_risk_cons]
  · rw [compute_route_risk_cons]
    norm_num [specRouteScore, specRouteMean, specSegmentRisk, specCasesPer10k,
      specHourScore, scenarioDistrictTable, scenarioHourlyTable, List.find?, rsum, rmul,
      radd, rdiv, rround2, round2]
  · rw [compute_route_risk_cons]
    norm_num [specRouteMean, specSegmentRisk, specCasesPer10k, specHourScore,
      scenarioDistrictTable, scenarioHourlyTable, List.find?, rsum, rmul, radd, rdiv,
      routeLabelOf, rltBool]

/-- C6, witness: the threshold characterization applied at the boundary
tables on the singleton route A at hour 0. -/
theorem claim_C6_witness :
    (["A"] : List String) ≠ [] ∧
    (compute_route_risk boundaryDistrictTable boundaryHourlyTable ["A"]
        0).route_risk_label =
      routeLabelOf (specRouteMean boundaryDistrictTable boundaryHourlyTable ["A"] 0) :=
  ⟨by decide, claim_C6_amended.1 boundaryDistrictTable boundaryHourlyTable ["A"] 0
    (by decide)⟩

/-- C9: for every permutation of a non-empty district list, with the
departure hour and both aggregate tables held fixed, the Composer returns the
same route_risk_score, while the per-segment sequence preserves the input
order of the district list. -/
theorem claim_C9 (districtSummary : List DistrictRiskEntry)
    (hourlySummary : List HourlyRiskEntry) (departureHour : ℤ) :
    (∀ ds₁ ds₂ : List String, List.Perm ds₁ ds₂ → ds₁ ≠ [] →
        (compute_route_risk districtSummary hourlySummary ds₁
            departureHour).route_risk_score =
          (compute_route_risk districtSummary hourlySummary ds₂
            departureHour).route_risk_score) ∧
    (∀ ds : List String,
        (compute_route_risk districtSummary hourlySummary ds
            departureHour).district_risks.map SegmentRisk.district = ds) := by
  constructor
  · intro ds₁ ds₂ hperm hne
    have hne₂ : ds₂ ≠ [] := by
      intro h
      subst h
      exact hne hperm.eq_nil
    obtain ⟨d₁, t₁, rfl⟩ := List.exists_cons_of_ne_nil hne
    obtain ⟨d₂, t₂, rfl⟩ := List.exists_cons_of_ne_nil hne₂
    rw [compute_route_risk_cons, compute_route_risk_cons]
    show specRouteScore districtSummary hourlySummary (d₁ :: t₁) departureHour =
      specRouteScore districtSummary hourlySummary (d₂ :: t₂) departureHour
    unfold specRouteScore specRouteMean
    rw [hperm.length_eq,
      rsum_perm (hperm.map (specSegmentRisk districtSummary hourlySummary departureHour))]
  · intro ds
    rw [route_district_risks, List.map_map]
    have hid : SegmentRisk.district ∘ segmentDetail districtSummary hourlySummary
        departureHour = id := rfl
    rw [hid, List.map_id]

/-- C9, witness: swapping a two-district route over the scenario tables
leaves the score unchanged, and the details follow the input order. -/
theorem claim_C9_witness :
    List.Perm ["A", "B"] ["B", "A"] ∧ (["A", "B"] : List String) ≠ [] ∧
    (compute_route_risk scenarioDistrictTable scenarioHourlyTable ["A", "B"]
        14).route_risk_score =
      (compute_route_risk scenarioDistrictTable scenarioHourlyTable ["B", "A"]
        14).route_risk_score :=
  ⟨List.Perm.swap "B" "A" [], by decide,
    (claim_C9 scenarioDistrictTable scenarioHourlyTable 14).1 ["A", "B"] ["B", "A"]
      (List.Perm.swap "B" "A" []) (by decide)⟩

/-!  Claims about the Incident Normalizer and the District Risk Aggregator. -/

/-- The final sort permutes the summary rows only. -/
theorem district_summary_perm (theft : List TheftRecord) (pop : List (String × ℚ)) :
    List.Perm (compute_district_risk_summary theft pop) (districtEntriesRaw theft pop) :=
  List.perm_insertionSort _ _

/-- The district column of the raw summary is exactly the group key list. -/
theorem districtEntriesRaw_districts (theft : List TheftRecord)
    (pop : List (String × ℚ)) :
    (districtEntriesRaw theft pop).map DistrictRiskEntry.district = districtKeys theft := by
  unfold districtEntriesRaw
  rw [List.map_map, List.map_map]
  have hid : (DistrictRiskEntry.district ∘ toDistrictEntry
      (quantile (33 / 100) (districtRates theft pop))
      (quantile (67 / 100) (districtRates theft pop))) ∘ mkDistrictRow theft pop = id := rfl
  rw [hid, List.map_id]

/-- C4, counterexample: the time cell 2500 is parsable, decodes to hour 25
with no range check, and the record counts as valid with hour above 23. -/
theorem claim_C4_counterexample :
    extract_hour (some 2500) = 25 ∧ ¬ extract_hour (some 2500) = -1 ∧
    (clean_crime_data oddTimeRecord).hour = 25 ∧
    (clean_crime_data oddTimeRecord).is_valid = true ∧
    ¬ (clean_crime_data oddTimeRecord).hour ≤ 23 := by
  decide

/-- C4, amended: hour decoding yields the sentinel -1 exactly when the time
cell is unparsable — no range check is applied, so parsable out-of-range
times decode to hours above 23 — and a record is valid exactly when its date
decoded, its location is present and its decoded hour is nonnegative; a valid
hour therefore is at least 0 but not necessarily at most 23. -/
theorem claim_C4_amended (r : RawRecord) :
    ((clean_crime_data r).hour = -1 ↔ r.time_raw = none) ∧
    ((clean_crime_data r).is_valid = true ↔
      ((convert_roc_date r.date_raw).isSome = true ∧ r.location.isSome = true ∧
        0 ≤ (clean_crime_data r).hour)) := by
  constructor
  · cases ht : r.time_raw with
    | none => simp [clean_crime_data, extract_hour, ht]
    | some v =>
      simp only [clean_crime_data, extract_hour, ht]
      constructor
      · intro h
        omega
      · intro h
        cases h
  · simp [clean_crime_data, Bool.and_eq_true, decide_eq_true_eq, and_assoc]

/-- C3, counterexample: with one valid record in 其他 and a population table
naming only 西區, the summary consists of exactly the 其他 row: the district
其他 is not excluded, and 西區, present only in the population table, is
omitted. -/
theorem claim_C3_counterexample :
    (compute_district_risk_summary strayTheft strayPop).map DistrictRiskEntry.district =
      ["其他"] ∧
    "其他" ∈ (compute_district_risk_summary strayTheft strayPop).map
      DistrictRiskEntry.district ∧
    ¬ "西區" ∈ (compute_district_risk_summary strayTheft strayPop).map
      DistrictRiskEntry.district := by
  have h : (compute_district_risk_summary strayTheft strayPop).map
      DistrictRiskEntry.district = ["其他"] := by
    unfold compute_district_risk_summary
    have hraw : districtEntriesRaw strayTheft strayPop =
        [toDistrictEntry (quantile (33 / 100) (districtRates strayTheft strayPop))
          (quantile (67 / 100) (districtRates strayTheft strayPop))
          (mkDistrictRow strayTheft strayPop "其他")] := by
      unfold districtEntriesRaw districtKeys strayTheft
      rfl
    rw [hraw]
    rfl
  exact ⟨h, by rw [h]; decide, by rw [h]; decide⟩

/-- C3, amended: the District Risk Aggregator outputs exactly one entry per
district present in the valid incident data — districts present only in the
population table are omitted by the left join, and no district is filtered,
so 其他 appears whenever a valid record resolves to it; 未知 is assigned only
to records with missing location, which are invalid and excluded upstream. -/
theorem claim_C3_amended :
    (∀ (theft : List TheftRecord) (pop : List (String × ℚ)),
        List.Perm ((compute_district_risk_summary theft pop).map
          DistrictRiskEntry.district) ((theft.map TheftRecord.district).dedup) ∧
        ((compute_district_risk_summary theft pop).map DistrictRiskEntry.district).Nodup) ∧
    (∀ r : RawRecord, (clean_crime_data r).is_valid = true →
        extract_district r.location ≠ "未知") := by
  constructor
  · intro theft pop
    have hperm : List.Perm ((compute_district_risk_summary theft pop).map
        DistrictRiskEntry.district) ((theft.map TheftRecord.district).dedup) := by
      have h1 := (district_summary_perm theft pop).map DistrictRiskEntry.district
      rw [districtEntriesRaw_districts] at h1
      exact h1
    exact ⟨hperm, hperm.nodup_iff.mpr ((theft.map TheftRecord.district).nodup_dedup)⟩
  · intro r hval
    have hloc : r.location.isSome = true := by
      simp [clean_crime_data, Bool.and_eq_true] at hval
      exact hval.1.2
    obtain ⟨s, hs⟩ := Option.isSome_iff_exists.mp hloc
    rw [hs]
    unfold extract_district
    cases hfind : TAICHUNG_DISTRICTS.find? (fun d => strContains s d) with
    | none => simp [hfind]
    | some d =>
      simp only [hfind]
      have hd := List.mem_of_find?_eq_some hfind
      have hall : ∀ x ∈ TAICHUNG_DISTRICTS, x ≠ "未知" := by decide
      exact hall d hd

/-- C3, witness: a record with a parsable date, hour 12 and a 北區 location
is valid, and its district is not 未知. -/
theorem claim_C3_witness :
    (clean_crime_data northRecord).is_valid = true ∧
    extract_district northRecord.location ≠ "未知" :=
  ⟨by decide, claim_C3_amended.2 northRecord (by decide)⟩

/-- The rate column the code aggregates over equals the spec-worded vector of
rates of districts with known population. -/
theorem districtRates_eq_claim (theft : List TheftRecord) (pop : List (String × ℚ)) :
    districtRates theft pop = claimKnownRates theft pop := by
  unfold districtRates claimKnownRates
  rw [List.filterMap_map]
  congr 1
  funext d
  simp only [Function.comp]
  unfold mkDistrictRow
  cases hp : pop.find? (fun p => p.1 == d) with
  | none => simp [hp]
  | some pr => simp [hp]

/-- The quantile of a non-empty vector is defined. -/
theorem quantile_isSome {l : List ℚ} (hne : l ≠ []) (p : ℚ) :
    ∃ a, quantile p l = some a := by
  cases l with
  | nil => exact absurd rfl hne
  | cons x t => exact ⟨_, rfl⟩

/-- C5: risk levels come from the 33rd and 67th percentile of cases_per_10k
over districts with known population only, and every summary entry is
classified rate at most p33 to 低, then at most p67 to 中, above to 高, and a
null rate to 未知. -/
theorem claim_C5 (theft : List TheftRecord) (pop : List (String × ℚ))
    (e : DistrictRiskEntry) (he : e ∈ compute_district_risk_summary theft pop) :
    (e.cases_per_10k_pop = none → e.risk_level = "未知") ∧
    (∀ x : ℚ, e.cases_per_10k_pop = some x →
      ∃ a b, quantile (33 / 100) (claimKnownRates theft pop) = some a ∧
        quantile (67 / 100) (claimKnownRates theft pop) = some b ∧
        e.risk_level = if x ≤ a then "低" else if x ≤ b then "中" else "高") := by
  have he₂ : e ∈ districtEntriesRaw theft pop :=
    (district_summary_perm theft pop).mem_iff.mp he
  unfold districtEntriesRaw at he₂
  obtain ⟨row, hrow, rfl⟩ := List.mem_map.mp he₂
  constructor
  · intro hnone
    show assign_risk_level _ _ row.cases_per_10k_pop = "未知"
    rw [show row.cases_per_10k_pop = none from hnone]
    rfl
  · intro x hx
    have hxrate : row.cases_per_10k_pop = some x := hx
    have hmem : x ∈ districtRates theft pop := by
      unfold districtRates
      exact List.mem_filterMap.mpr ⟨row, hrow, hxrate⟩
    have hne : claimKnownRates theft pop ≠ [] := by
      rw [← districtRates_eq_claim]
      exact List.ne_nil_of_mem hmem
    obtain ⟨a, ha⟩ := quantile_isSome hne (33 / 100)
    obtain ⟨b, hb⟩ := quantile_isSome hne (67 / 100)
    refine ⟨a, b, ha, hb, ?_⟩
    show assign_risk_level (quantile (33 / 100) (districtRates theft pop))
      (quantile (67 / 100) (districtRates theft pop)) row.cases_per_10k_pop = _
    rw [districtRates_eq_claim, ha, hb, hxrate]
    simp [assign_risk_level, rleq]

/-- The pipeline on the one-record witness data produces exactly wEntry. -/
theorem wSummary_eq : compute_district_risk_summary wTheft wPop = [wEntry] := by
  unfold compute_district_risk_summary
  have hraw : districtEntriesRaw wTheft wPop = [wEntry] := by
    unfold districtEntriesRaw districtRates districtKeys wTheft
    norm_num [mkDistrictRow, toDistrictEntry, wPop, wEntry, List.find?, List.countP_cons,
      isDaytime, round1, round2, round_eq, quantile, assign_risk_level, rleq,
      List.insertionSort, List.orderedInsert, List.filterMap_cons, List.filterMap_nil,
      List.getD]
  rw [hraw]
  rfl

/-- C5, witness: the one-record pipeline yields the entry with rate 10,
classified 低 by the degenerate percentiles p33 = p67 = 10. -/
theorem claim_C5_witness :
    wEntry ∈ compute_district_risk_summary wTheft wPop ∧
    (∃ a b, quantile (33 / 100) (claimKnownRates wTheft wPop) = some a ∧
      quantile (67 / 100) (claimKnownRates wTheft wPop) = some b ∧
      wEntry.risk_level = if (10 : ℚ) ≤ a then "低" else if (10 : ℚ) ≤ b then "中"
        else "高") := by
  have hmem : wEntry ∈ compute_district_risk_summary wTheft wPop := by
    rw [wSummary_eq]
    exact List.mem_singleton_self _
  exact ⟨hmem, (claim_C5 wTheft wPop wEntry hmem).2 10 rfl⟩

/-- C7: for every summary entry with positive total_cases, the day and night
ratios, each rounded to one decimal, sum to 100 within rounding tolerance. -/
theorem claim_C7 (theft : List TheftRecord) (pop : List (String × ℚ))
    (e : DistrictRiskEntry) (he : e ∈ compute_district_risk_summary theft pop)
    (hpos : 0 < e.total_cases) :
    |e.daytime_cases_ratio + e.night_cases_ratio - 100| ≤ 1 / 10 := by
  have he₂ : e ∈ districtEntriesRaw theft pop :=
    (district_summary_perm theft pop).mem_iff.mp he
  unfold districtEntriesRaw at he₂
  obtain ⟨row, hrow, rfl⟩ := List.mem_map.mp he₂
  obtain ⟨d, hd, rfl⟩ := List.mem_map.mp hrow
  have htpos : 0 < theft.countP (fun r => r.district == d) := hpos
  have hdle : theft.countP (fun r => r.district == d && isDaytime r.hour) ≤
      theft.countP (fun r => r.district == d) :=
    List.countP_mono_left (fun r _ h => by
      rw [Bool.and_eq_true] at h
      exact h.1)
  show |round1 ((theft.countP (fun r => r.district == d && isDaytime r.hour) : ℚ) /
      (theft.countP (fun r => r.district == d) : ℚ) * 100) +
    round1 (((theft.countP (fun r => r.district == d) -
        theft.countP (fun r => r.district == d && isDaytime r.hour) : ℕ) : ℚ) /
      (theft.countP (fun r => r.district == d) : ℚ) * 100) - 100| ≤ 1 / 10
  rw [Nat.cast_sub hdle]
  have htne : ((theft.countP (fun r => r.district == d) : ℕ) : ℚ) ≠ 0 :=
    Nat.cast_ne_zero.mpr (Nat.pos_iff_ne_zero.mp htpos)
  have hsum : (theft.countP (fun r => r.district == d && isDaytime r.hour) : ℚ) /
        (theft.countP (fun r => r.district == d) : ℚ) * 100 +
      ((theft.countP (fun r => r.district == d) : ℚ) -
          (theft.countP (fun r => r.district == d && isDaytime r.hour) : ℚ)) /
        (theft.countP (fun r => r.district == d) : ℚ) * 100 = 100 := by
    field_simp
    ring
  have h1 := abs_round1_sub ((theft.countP (fun r => r.district == d && isDaytime
    r.hour) : ℚ) / (theft.countP (fun r => r.district == d) : ℚ) * 100)
  have h2 := abs_round1_sub (((theft.countP (fun r => r.district == d) : ℚ) -
      (theft.countP (fun r => r.district == d && isDaytime r.hour) : ℚ)) /
    (theft.countP (fun r => r.district == d) : ℚ) * 100)
  rw [abs_le] at h1 h2 ⊢
  constructor
  · linarith [h1.1, h2.1]
  · linarith [h1.2, h2.2]

/-- C7, witness: the one-record entry has ratios 0 and 100, summing to 100. -/
theorem claim_C7_witness :
    wEntry ∈ compute_district_risk_summary wTheft wPop ∧ 0 < wEntry.total_cases ∧
    |wEntry.daytime_cases_ratio + wEntry.night_cases_ratio - 100| ≤ 1 / 10 := by
  have hmem : wEntry ∈ compute_district_risk_summary wTheft wPop := by
    rw [wSummary_eq]
    exact List.mem_singleton_self _
  exact ⟨hmem, by decide, claim_C7 wTheft wPop wEntry hmem (by decide)⟩

/-!  Claims about the Hourly Risk Aggregator. -/

/-- Looking up a district that occurs in the data in the totals table finds
its row, carrying the count of its records. -/
theorem find?_districtTotals (theft : List TheftRecord) (d : String)
    (hd : d ∈ districtKeys theft) :
    (districtTotals theft).find? (fun p => p.1 == d) =
      some (d, theft.countP (fun r => r.district == d)) := by
  unfold districtTotals
  have hgen : ∀ ks : List String, d ∈ ks →
      (ks.map (fun k => (k, theft.countP (fun r => r.district == k)))).find?
        (fun p => p.1 == d) = some (d, theft.countP (fun r => r.district == d)) := by
    intro ks
    induction ks with
    | nil => intro hmem; cases hmem
    | cons k t ih =>
      intro hmem
      rw [List.map_cons, List.find?_cons]
      cases hk : (k == d) with
      | true =>
        have hkd : k = d := beq_iff_eq.mp hk
        subst hkd
        simp [hk]
      | false =>
        have hkd : k ≠ d := by
          intro h
          rw [h, beq_self_eq_true] at hk
          cases hk
        have hdt : d ∈ t := by
          cases hmem with
          | head => exact absurd rfl hkd
          | tail _ h => exact h
        simp only [hk]
        exact ih hdt
  exact hgen (districtKeys theft) hd

/-- The hourly summary is a permutation of the rows built from the group
keys. -/
theorem hourly_summary_perm (theft : List TheftRecord) :
    List.Perm (compute_hourly_risk_summary theft)
      ((hourlyKeys theft).map (mkHourlyRow theft)) :=
  List.perm_insertionSort _ _

/-- Hour-indexed group counts of one district partition its total count when
all its records carry hours inside 0..23. -/
theorem hour_count_partition (theft : List TheftRecord) (d : String)
    (hrange : ∀ r ∈ theft, r.district = d → 0 ≤ r.hour ∧ r.hour < 24) :
    ∑ h ∈ Finset.range 24,
        theft.countP (fun r => r.district == d && r.hour == (h : ℤ)) =
      theft.countP (fun r => r.district == d) := by
  induction theft with
  | nil => simp
  | cons r t ih =>
    have hrt : ∀ x ∈ t, x.district = d → 0 ≤ x.hour ∧ x.hour < 24 := fun x hx =>
      hrange x (List.mem_cons_of_mem r hx)
    simp only [List.countP_cons]
    rw [Finset.sum_add_distrib, ih hrt]
    by_cases hd : r.district = d
    · have hb : (r.district == d) = true := beq_iff_eq.mpr hd
      have hr := hrange r (List.mem_cons_self r t) hd
      have hsum : (∑ x ∈ Finset.range 24,
          if (r.district == d && r.hour == (x : ℤ)) = true then (1 : ℕ) else 0) = 1 := by
        have hconv : ∀ x ∈ Finset.range 24,
            (if (r.district == d && r.hour == (x : ℤ)) = true then (1 : ℕ) else 0) =
              if x = r.hour.toNat then 1 else 0 := by
          intro x _
          by_cases he : r.hour = (x : ℤ)
          · rw [if_pos, if_pos]
            · omega
            · rw [hb, Bool.true_and]
              exact beq_iff_eq.mpr he
          · rw [if_neg, if_neg]
            · intro hcontra
              exact he (by omega)
            · rw [hb, Bool.true_and]
              intro hcontra
              exact he (beq_iff_eq.mp hcontra)
        rw [Finset.sum_congr rfl hconv,
          Finset.sum_ite_eq' (Finset.range 24) r.hour.toNat (fun _ => 1),
          if_pos (Finset.mem_range.mpr (by omega))]
      rw [hsum, hb, if_pos rfl]
    · have hb : (r.district == d) = false := by
        cases hbe : (r.district == d) with
        | true => exact absurd (beq_iff_eq.mp hbe) hd
        | false => rfl
      have hsum : (∑ x ∈ Finset.range 24,
          if (r.district == d && r.hour == (x : ℤ)) = true then (1 : ℕ) else 0) = 0 := by
        apply Finset.sum_eq_zero
        intro x _
        rw [if_neg]
        rw [hb, Bool.false_and]
        intro hcontra
        cases hcontra
      rw [hsum, hb]
      simp

/-- C8: for a district with at least one case in each of the 24 hours (and
all its cases inside hours 0..23), the 24 hour_risk_score values average to
1.0 within rounding, and each of the 24 values appears in the hourly
summary. -/
theorem claim_C8 (theft : List TheftRecord) (d : String)
    (hcov : ∀ h : ℕ, h < 24 → ∃ r ∈ theft, r.district = d ∧ r.hour = (h : ℤ))
    (hrange : ∀ r ∈ theft, r.district = d → 0 ≤ r.hour ∧ r.hour < 24) :
    |(∑ h ∈ Finset.range 24, hourScore theft d h) / 24 - 1| ≤ 1 / 200 ∧
    (∀ h : ℕ, h < 24 → ∃ e ∈ compute_hourly_risk_summary theft,
        e.district = d ∧ e.hour = (h : ℤ) ∧ e.hour_risk_score = hourScore theft d h) := by
  have hTpos : 0 < theft.countP (fun r => r.district == d) := by
    obtain ⟨r, hr, hrd, _⟩ := hcov 0 (by norm_num)
    exact List.countP_pos_iff.mpr ⟨r, hr, beq_iff_eq.mpr hrd⟩
  have hTne : ((theft.countP (fun r => r.district == d) : ℕ) : ℚ) ≠ 0 :=
    Nat.cast_ne_zero.mpr (Nat.pos_iff_ne_zero.mp hTpos)
  constructor
  · have hpart := hour_count_partition theft d hrange
    have hxsum : ∑ h ∈ Finset.range 24,
        ((theft.countP (fun r => r.district == d && r.hour == (h : ℤ)) : ℚ) /
          ((theft.countP (fun r => r.district == d) : ℚ) / 24)) = 24 := by
      rw [← Finset.sum_div]
      have hcast : ∑ h ∈ Finset.range 24,
          ((theft.countP (fun r => r.district == d && r.hour == (h : ℤ)) : ℕ) : ℚ) =
            ((theft.countP (fun r => r.district == d) : ℕ) : ℚ) := by
        rw [← Nat.cast_sum]
        exact_mod_cast congrArg (Nat.cast : ℕ → ℚ) hpart
      rw [hcast]
      field_simp
    have hdiff : |(∑ h ∈ Finset.range 24, hourScore theft d h) - 24| ≤ 24 * (1 / 200) := by
      have : (∑ h ∈ Finset.range 24, hourScore theft d h) - 24 =
          ∑ h ∈ Finset.range 24, (hourScore theft d h -
            ((theft.countP (fun r => r.district == d && r.hour == (h : ℤ)) : ℚ) /
              ((theft.countP (fun r => r.district == d) : ℚ) / 24))) := by
        rw [Finset.sum_sub_distrib, hxsum]
      rw [this]
      calc |∑ h ∈ Finset.range 24, (hourScore theft d h -
            ((theft.countP (fun r => r.district == d && r.hour == (h : ℤ)) : ℚ) /
              ((theft.countP (fun r => r.district == d) : ℚ) / 24)))| ≤
          ∑ h ∈ Finset.range 24, |hourScore theft d h -
            ((theft.countP (fun r => r.district == d && r.hour == (h : ℤ)) : ℚ) /
              ((theft.countP (fun r => r.district == d) : ℚ) / 24))| :=
            Finset.abs_sum_le_sum_abs _ _
        _ ≤ ∑ _h ∈ Finset.range 24, (1 / 200 : ℚ) :=
            Finset.sum_le_sum (fun h _ => abs_round2_sub _)
        _ = 24 * (1 / 200) := by
            rw [Finset.sum_const, Finset.card_range]
            norm_num
    have heq : (∑ h ∈ Finset.range 24, hourScore theft d h) / 24 - 1 =
        ((∑ h ∈ Finset.range 24, hourScore theft d h) - 24) / 24 := by
      ring
    rw [heq, abs_div, abs_of_pos (by norm_num : (0 : ℚ) < 24)]
    have habs := abs_nonneg ((∑ h ∈ Finset.range 24, hourScore theft d h) - 24)
    linarith [hdiff]
  · intro h hh
    obtain ⟨r, hr, hrd, hrh⟩ := hcov h hh
    have hkey : (d, (h : ℤ)) ∈ hourlyKeys theft :=
      List.mem_dedup.mpr (List.mem_map.mpr ⟨r, hr, by rw [hrd, hrh]⟩)
    have hdk : d ∈ districtKeys theft :=
      List.mem_dedup.mpr (List.mem_map.mpr ⟨r, hr, hrd⟩)
    refine ⟨mkHourlyRow theft (d, (h : ℤ)),
      (hourly_summary_perm theft).mem_iff.mpr (List.mem_map.mpr ⟨(d, (h : ℤ)), hkey, rfl⟩),
      rfl, rfl, ?_⟩
    show round2 ((theft.countP (fun r => r.district == d && r.hour == (h : ℤ)) : ℚ) /
      (((((districtTotals theft).find? (fun p => p.1 == d)).map Prod.snd).getD 0 : ℕ) / 24))
      = hourScore theft d h
    rw [find?_districtTotals theft d hdk]
    rfl

/-- C8, witness: one case in each of the 24 hours of one district gives 24
scores of 1.0 whose average is exactly 1. -/
theorem claim_C8_witness :
    (∀ h : ℕ, h < 24 → ∃ r ∈ w24Theft, r.district = "中區" ∧ r.hour = (h : ℤ)) ∧
    (∀ r ∈ w24Theft, r.district = "中區" → 0 ≤ r.hour ∧ r.hour < 24) ∧
    |(∑ h ∈ Finset.range 24, hourScore w24Theft "中區" h) / 24 - 1| ≤ 1 / 200 :=
  ⟨by decide, by decide, (claim_C8 w24Theft "中區" (by decide) (by decide)).1⟩

/-- C10: every emitted hourly row comes from a non-empty (district, hour)
group, its joined district_total is at least 1, the denominator
district_total / 24 of hour_risk_score is positive, and a district with zero
valid records contributes no rows. -/
theorem claim_C10 (theft : List TheftRecord) :
    (∀ e ∈ compute_hourly_risk_summary theft,
        1 ≤ e.hour_cases ∧
        1 ≤ ((((districtTotals theft).find? (fun p => p.1 == e.district)).map
          Prod.snd).getD 0) ∧
        (0 : ℚ) < (((((districtTotals theft).find? (fun p => p.1 == e.district)).map
          Prod.snd).getD 0 : ℕ) : ℚ) / 24) ∧
    (∀ d : String, theft.countP (fun r => r.district == d) = 0 →
        ∀ e ∈ compute_hourly_risk_summary theft, e.district ≠ d) := by
  have hmem : ∀ e ∈ compute_hourly_risk_summary theft,
      ∃ r ∈ theft, r.district = e.district ∧
        1 ≤ e.hour_cases := by
    intro e he
    have he₂ := (hourly_summary_perm theft).mem_iff.mp he
    obtain ⟨k, hk, rfl⟩ := List.mem_map.mp he₂
    obtain ⟨r, hr, hkr⟩ := List.mem_map.mp (List.mem_dedup.mp hk)
    have hrd : r.district = k.1 := by
      rw [← hkr]
    have hrh : r.hour = k.2 := by
      rw [← hkr]
    refine ⟨r, hr, hrd, ?_⟩
    show 1 ≤ theft.countP (fun x => x.district == k.1 && x.hour == k.2)
    exact List.countP_pos_iff.mpr ⟨r, hr, by
      rw [Bool.and_eq_true]
      exact ⟨beq_iff_eq.mpr hrd, beq_iff_eq.mpr hrh⟩⟩
  constructor
  · intro e he
    obtain ⟨r, hr, hrd, hc⟩ := hmem e he
    have hdk : e.district ∈ districtKeys theft :=
      List.mem_dedup.mpr (List.mem_map.mpr ⟨r, hr, hrd⟩)
    have hT : 1 ≤ theft.countP (fun x => x.district == e.district) :=
      List.countP_pos_iff.mpr ⟨r, hr, beq_iff_eq.mpr hrd⟩
    rw [find?_districtTotals theft e.district hdk]
    refine ⟨hc, hT, ?_⟩
    have : (0 : ℚ) < ((theft.countP (fun x => x.district == e.district) : ℕ) : ℚ) := by
      exact_mod_cast hT
    positivity
  · intro d hzero e he hed
    obtain ⟨r, hr, hrd, _⟩ := hmem e he
    have : 0 < theft.countP (fun x => x.district == d) :=
      List.countP_pos_iff.mpr ⟨r, hr, beq_iff_eq.mpr (hed ▸ hrd)⟩
    omega

/-- C10, witness: the one-record hourly summary contains exactly the 中區
row at hour 3, with positive group count and denominator. -/
theorem claim_C10_witness :
    wHourlyEntry ∈ compute_hourly_risk_summary wTheft ∧
    1 ≤ wHourlyEntry.hour_cases ∧
    (0 : ℚ) < (((((districtTotals wTheft).find? (fun p =>
      p.1 == wHourlyEntry.district)).map Prod.snd).getD 0 : ℕ) : ℚ) / 24 := by
  have hmem : wHourlyEntry ∈ compute_hourly_risk_summary wTheft := by
    have h : compute_hourly_risk_summary wTheft = [wHourlyEntry] := by
      unfold compute_hourly_risk_summary hourlyKeys wTheft
      norm_num [mkHourlyRow, districtTotals, districtKeys, List.find?, List.countP_cons,
        round2, round_eq, List.insertionSort, List.orderedInsert, wHourlyEntry]
    rw [h]
    exact List.mem_singleton_self _
  exact ⟨hmem, ((claim_C10 wTheft).1 wHourlyEntry hmem).1,
    ((claim_C10 wTheft).1 wHourlyEntry hmem).2.2⟩

end SafeTaichung
